import Mathlib

/-!
Shallow embedding of `main.py` (CourseEvalDataConversion): a converter that
reads course-evaluation CSV exports and produces three record collections
(main per-offering summary, quantitative per-question rows, qualitative
per-comment rows with a sentiment bucket).

Modelling conventions:
* A CSV row is a `List String` of cells; a file's content is a
  `List (List String)`.
* Python floats are modelled as exact rationals (`ℚ`); the float literals
  compared in `compound_to_bucket` and the decimal strings parsed from cells
  are exact in the claims considered.  Non-finite literals ("inf"/"nan") and
  digit-group underscores accepted by Python's `float` are not modelled.
* Python's `\s` / `str.strip()` whitespace classes are modelled by the ASCII
  whitespace characters plus the no-break space U+00A0 (the only whitespace
  characters the export format uses); `str.isdigit` and `str.lower` are
  modelled on ASCII.
* The sentiment analyser (`sia.polarity_scores(...)['compound']`) is an
  external collaborator: it is threaded through as a function
  `score : String → ℚ`.
* Exceptions are modelled with `Except`: `parse_metadata`'s `ValueError`
  ("Could not parse metadata in file header."), the `ValueError` a failing
  `float(...)` raises in `parse_quant_section`, and the I/O error reading a
  file (a file that fails to read is a `none` input to `processFile`).
-/

/-! ## Character and string helpers (Python string semantics) -/

/-- Whitespace as matched by Python's `\s` and stripped by `str.strip()`,
restricted to the characters occurring in this format: ASCII whitespace and
the no-break space U+00A0. -/
def isPyWS (c : Char) : Bool :=
  c == ' ' || c == '\t' || c == '\n' || c == '\r' || c == '\x0B' ||
    c == '\x0C' || c == ' '

/-- Drop leading and trailing characters satisfying `p`. -/
def stripEnds (p : Char → Bool) (cs : List Char) : List Char :=
  ((cs.dropWhile p).reverse.dropWhile p).reverse

/-- Python `str.strip()` (no arguments: whitespace). -/
def pyStrip (s : String) : String := String.mk (stripEnds isPyWS s.data)

/-- Python `str.strip(': ')`: strip colons and spaces from both ends. -/
def pyStripColonSpace (s : String) : String :=
  String.mk (stripEnds (fun c => c == ':' || c == ' ') s.data)

/-- Python `str.lower()` on a character list (ASCII). -/
def lowerList (cs : List Char) : List Char := cs.map Char.toLower

/-- Python `str.lower()` (ASCII). -/
def lowerStr (s : String) : String := String.mk (lowerList s.data)

/-- Python `str.startswith(pre)` (case-sensitive). -/
def pyStartsWith (s pre : String) : Bool := pre.data.isPrefixOf s.data

/-- Python `str.isdigit()` (ASCII digits): non-empty and all digits. -/
def pyIsDigit (s : String) : Bool := !s.data.isEmpty && s.data.all Char.isDigit

/-- Numeric value of a digit string (Python `int` of a digit-only string). -/
def natOfDigits (cs : List Char) : Nat :=
  cs.foldl (fun n c => 10 * n + (c.toNat - 48)) 0

/-- Python `str.title()` restricted to what the season words need: the first
letter of each alphabetic run is upper-cased, the rest lower-cased. -/
def pyTitleGo : Bool → List Char → List Char
  | _, [] => []
  | prev, c :: rest =>
    if c.isAlpha then
      (if prev then c.toLower else c.toUpper) :: pyTitleGo true rest
    else c :: pyTitleGo false rest

/-- Python `str.title()`. -/
def pyTitle (s : String) : String := String.mk (pyTitleGo false s.data)

/-- `clean_cell` of `main.py`: `(cell or "").strip().replace(' ', ' ')`. -/
def clean_cell (cell : String) : String :=
  String.mk ((pyStrip cell).data.map fun c => if c == ' ' then ' ' else c)

/-! ## The two header regular expressions

`meta_re = re.compile(r"^(Spring|Summer|Fall|Winter)\s+(\d{4}),\s+(.+?)\s+Section", re.I)`
`possible_resp_re = re.compile(r"There were:\s+(\d+)\s+possible respondents", re.I)`

`meta_re` is anchored (`^` without MULTILINE matches only at position 0, so
`re.search` matches only at the start of the line); `possible_resp_re` is
searched at every position, leftmost match first.  The matchers below follow
the backtracking semantics of the patterns: each `\s+`/`\d+` before a
non-matching literal is forced to its maximal run, and the lazy `(.+?)`
takes the shortest prefix after which `\s+Section` matches, with the first
`\s+` after the comma preferring its longest run. -/

/-- The season alternation `(Spring|Summer|Fall|Winter)` with `re.I`: if one
of the four words is a case-insensitive prefix of `cs`, the matched
characters and the remainder.  (At most one alternative can match, so the
alternation needs no backtracking.) -/
def seasonPref (cs : List Char) : Option (List Char × List Char) :=
  ["spring".data, "summer".data, "fall".data, "winter".data].findSome?
    fun w =>
      if lowerList (cs.take w.length) == w then
        some (cs.take w.length, cs.drop w.length)
      else none

/-- Does `\s+Section` (case-insensitive, `\s+` forced maximal) match at the
front of `cs`?  This is the stop condition of the lazy title group. -/
def titleStop (cs : List Char) : Bool :=
  let r := cs.takeWhile isPyWS
  !r.isEmpty && "section".data.isPrefixOf (lowerList (cs.drop r.length))

/-- The lazy group `(.+?)` before `\s+Section`: grow the title one character
at a time (shortest first, `.` does not match a newline) until
`\s+Section` matches at the current point.  `acc` holds the reversed title
consumed so far. -/
def findTitleSplit : List Char → List Char → Option (List Char)
  | acc, [] => if acc ≠ [] && titleStop [] then some acc.reverse else none
  | acc, c :: rest =>
    if acc ≠ [] && titleStop (c :: rest) then some acc.reverse
    else if c == '\n' then none
    else findTitleSplit (c :: acc) rest

/-- The `\s+(.+?)\s+Section` tail after the comma: the first `\s+` prefers
its longest run (`a` whitespace characters, tried from the maximal run
downward, at least one). -/
def tryWsSplit (r2 : List Char) : Nat → Option (List Char)
  | 0 => none
  | a + 1 =>
    match findTitleSplit [] (r2.drop (a + 1)) with
    | some t => some t
    | none => tryWsSplit r2 a

/-- `meta_re.search(line)`, returning
`(group(1).title(), int(group(2)), group(3).strip())` as the code consumes
the match: the term, the year and the course title. -/
def metaMatch (line : String) : Option (String × Nat × String) :=
  match seasonPref line.data with
  | none => none
  | some (seas, r0) =>
    let ws1 := r0.takeWhile isPyWS
    if ws1.isEmpty then none
    else
      let r1 := r0.drop ws1.length
      let ds := r1.take 4
      if ds.length == 4 && ds.all Char.isDigit then
        match r1.drop 4 with
        | ',' :: r2 =>
          match tryWsSplit r2 (r2.takeWhile isPyWS).length with
          | some title =>
            some (pyTitle (String.mk seas), natOfDigits ds,
              pyStrip (String.mk title))
          | none => none
        | _ => none
      else none

/-- One attempt of `possible_resp_re` at the front of `cs`. -/
def respAt (cs : List Char) : Option Nat :=
  let lit1 := "there were:".data
  if lit1.isPrefixOf (lowerList cs) then
    let r0 := cs.drop lit1.length
    let ws1 := r0.takeWhile isPyWS
    if ws1.isEmpty then none
    else
      let r1 := r0.drop ws1.length
      let ds := r1.takeWhile Char.isDigit
      if ds.isEmpty then none
      else
        let r2 := r1.drop ds.length
        let ws2 := r2.takeWhile isPyWS
        if ws2.isEmpty then none
        else
          let r3 := r2.drop ws2.length
          if "possible respondents".data.isPrefixOf (lowerList r3) then
            some (natOfDigits ds)
          else none
  else none

/-- `possible_resp_re.search(line)`: try every position, leftmost first,
returning `int(group(1))`. -/
def respGo : List Char → Option Nat
  | [] => respAt []
  | c :: rest =>
    match respAt (c :: rest) with
    | some n => some n
    | none => respGo rest

/-- `possible_resp_re.search(line)` on a line. -/
def respMatch (line : String) : Option Nat := respGo line.data

/-! ## Metadata -/

/-- The metadata dictionary `parse_metadata` builds: Course Title, Term,
Year, # of Possible Responses. -/
structure Meta where
  courseTitle : String
  term : String
  year : Nat
  possibleRespondents : Nat
deriving DecidableEq, Repr

/-- The loop body of `parse_metadata`: each of the two regexes, when it
matches a line, overwrites its fields of the accumulated state. -/
def metaStep (acc : Option (String × Nat × String) × Option Nat) (l : String) :
    Option (String × Nat × String) × Option Nat :=
  ((metaMatch l).or acc.1, (respMatch l).or acc.2)

/-- `parse_metadata` of `main.py`: scan `lines[:4]`, overwrite on each regex
match, and raise `ValueError` (here `.error ()`) if any of term, year,
course title, possible respondents is still unset. -/
def parse_metadata (lines : List String) : Except Unit Meta :=
  match (lines.take 4).foldl metaStep (none, none) with
  | (some (t, y, c), some p) => .ok ⟨c, t, y, p⟩
  | _ => .error ()

/-! ## Quantitative rows -/

/-- The question catalog `QUESTION_MAP` of `main.py`, in source order. -/
def QUESTION_MAP : List (Nat × String) :=
  [(1, "Course organized to help learning"),
   (2, "Course developed abilities/skills for subject"),
   (3, "Course developed ability to think critically"),
   (4, "Material organized around learning outcomes"),
   (5, "Course improved problem-solving skills"),
   (7, "Satisfaction with effort in course"),
   (14, "Instructor presented organized content"),
   (15, "Instructor increased understanding of material"),
   (16, "Instructor helpful to student individually"),
   (17, "Instructor provided meaningful feedback"),
   (18, "Instructor provided timely feedback"),
   (19, "Instructor encouraged participation"),
   (20, "Instructor conduct professional"),
   (21, "Overall effectiveness of instructor\x27s teaching technique"),
   (22, "Overall demonstration of the significance of subject matter"),
   (23, "Instructor created an environment conducive to learning")]

/-- `TEXT_TO_QNUM = {v.lower(): k for k, v in QUESTION_MAP.items()}` — the
reverse lookup table keyed by lower-cased question text (the texts are
pairwise distinct, so dict overwriting never occurs and first-match lookup
agrees with the dict). -/
def TEXT_TO_QNUM : List (String × Nat) :=
  QUESTION_MAP.map fun p => (lowerStr p.2, p.1)

/-- Rational value of a parsed float literal: sign, mantissa digits, number
of fraction digits, exponent. -/
def ratOfParts (sign : Int) (mant : Nat) (fracLen : Nat) (ex : Int) : ℚ :=
  match ex with
  | .ofNat n => mkRat (sign * mant * 10 ^ n) (10 ^ fracLen)
  | .negSucc n => mkRat (sign * mant) (10 ^ fracLen * 10 ^ (n + 1))

/-- Python `float(s)` on a cleaned cell, as an exact rational: optional
sign, decimal digits with an optional point (at least one digit), optional
exponent.  `none` when `s` is not a valid finite float literal. -/
def pyFloat (s : String) : Option ℚ :=
  let cs := s.data
  let (sign, cs1) : Int × List Char :=
    match cs with
    | '+' :: rest => (1, rest)
    | '-' :: rest => (-1, rest)
    | _ => (1, cs)
  let intDigits := cs1.takeWhile Char.isDigit
  let cs2 := cs1.drop intDigits.length
  let (fracDigits, cs3) : List Char × List Char :=
    match cs2 with
    | '.' :: rest => (rest.takeWhile Char.isDigit,
        rest.drop (rest.takeWhile Char.isDigit).length)
    | _ => ([], cs2)
  if intDigits.isEmpty && fracDigits.isEmpty then none
  else
    let mant := natOfDigits (intDigits ++ fracDigits)
    match cs3 with
    | [] => some (ratOfParts sign mant fracDigits.length 0)
    | e :: rest =>
      if e == 'e' || e == 'E' then
        let (esign, rest1) : Int × List Char :=
          match rest with
          | '+' :: r => (1, r)
          | '-' :: r => (-1, r)
          | _ => (1, rest)
        let eds := rest1.takeWhile Char.isDigit
        if eds.isEmpty || rest1.drop eds.length ≠ [] then none
        else some (ratOfParts sign mant fracDigits.length
          (esign * natOfDigits eds))
      else none

/-- One quantitative measurement, as the dict `parse_quant_section`
appends: the file's metadata plus Question #, Question Text, N, Avg, SD. -/
structure Quant where
  meta : Meta
  qnum : Option Nat
  qtext : String
  sampleN : Option Nat
  avg : Option ℚ
  sd : Option ℚ
deriving DecidableEq, Repr

/-- `parse_quant_section` of `main.py`.  The loop breaks on an empty row or
a row whose first cell starts with "Text Responses"; rows with fewer than 5
cells or with empty cleaned question text are skipped; `N` is parsed only
when `clean_cell(row[2]).isdigit()`; `Avg`/`SD` are parsed when non-empty,
and a `float(...)` failure there is the `ValueError` that aborts the file
(`.error ()`). -/
def parse_quant_section : List (List String) → Meta → Except Unit (List Quant)
  | [], _ => .ok []
  | row :: rest, meta =>
    if row.isEmpty || pyStartsWith (row.headD "") "Text Responses" then .ok []
    else if row.length < 5 then parse_quant_section rest meta
    else if clean_cell (row.getD 1 "") = "" then parse_quant_section rest meta
    else
      match (if clean_cell (row.getD 3 "") = "" then some none
            else (pyFloat (clean_cell (row.getD 3 ""))).map some),
          (if clean_cell (row.getD 4 "") = "" then some none
            else (pyFloat (clean_cell (row.getD 4 ""))).map some) with
      | some avg, some sd =>
        match parse_quant_section rest meta with
        | .ok tail =>
          .ok (⟨meta,
            TEXT_TO_QNUM.lookup (lowerStr (clean_cell (row.getD 1 ""))),
            clean_cell (row.getD 1 ""),
            if pyIsDigit (clean_cell (row.getD 2 "")) then
              some (natOfDigits (clean_cell (row.getD 2 "")).data)
            else none,
            avg, sd⟩ :: tail)
        | .error e => .error e
      | _, _ => .error ()

/-! ## Qualitative rows -/

/-- One qualitative comment, as the dict `parse_qual_section` appends:
Course Title, Term, Year, Question Text, Answer Text, Sentiment. -/
structure Qual where
  courseTitle : String
  term : String
  year : Nat
  qtext : String
  answer : String
  sentiment : String
deriving DecidableEq, Repr

/-- Sentiment buckets from the VADER compound score (`compound_to_bucket`
of `main.py`), scores as exact rationals. -/
def compound_to_bucket (score : ℚ) : String :=
  if score ≥ 0.75 then "Highly Positive"
  else if score ≥ 0.50 then "Positive"
  else if score ≥ 0.10 then "Slightly Positive"
  else if score > -0.10 then "Neutral"
  else if score > -0.50 then "Slightly Negative"
  else if score > -0.75 then "Negative"
  else "Highly Negative"

/-- `re.sub(r'^Question:\s*', '', cell, flags=re.I).strip(': ').strip()`:
remove the case-insensitive "Question:" tag and the following whitespace,
then strip colons/spaces, then strip whitespace.  (Only reached when the
lowered cell starts with "question:", so the sub always fires at
position 0.) -/
def stripQuestionTag (cell : String) : String :=
  pyStrip (pyStripColonSpace
    (String.mk ((cell.data.drop 9).dropWhile isPyWS)))

/-- Is this row a "Question:" header row of the qualitative block?  (A
non-empty row whose cleaned first cell is non-empty and, lowered, starts
with "question:".) -/
def isHeaderRow (row : List String) : Bool :=
  !row.isEmpty && clean_cell (row.headD "") ≠ "" &&
    pyStartsWith (lowerStr (clean_cell (row.headD ""))) "question:"

/-- The loop of `parse_qual_section`, state = the mutable
`current_question` variable (`q`). -/
def qualGo (score : String → ℚ) (meta : Meta) :
    Option String → List (List String) → List Qual
  | _, [] => []
  | q, row :: rest =>
    if row.isEmpty then qualGo score meta q rest
    else if clean_cell (row.headD "") = "" then qualGo score meta q rest
    else if pyStartsWith (lowerStr (clean_cell (row.headD ""))) "question:"
    then
      qualGo score meta (some (stripQuestionTag (clean_cell (row.headD ""))))
        rest
    else
      match q with
      | none => qualGo score meta none rest
      | some qq =>
        if lowerStr (clean_cell (row.headD "")) = "n/a" ||
            lowerStr (clean_cell (row.headD "")) = "na" then
          qualGo score meta q rest
        else
          ⟨meta.courseTitle, meta.term, meta.year, qq,
            clean_cell (row.headD ""),
            compound_to_bucket (score (clean_cell (row.headD "")))⟩ ::
            qualGo score meta q rest

/-- `parse_qual_section` of `main.py`; `score` is the external sentiment
analyser (`sia.polarity_scores(cell)['compound']`). -/
def parse_qual_section (score : String → ℚ) (rows : List (List String))
    (meta : Meta) : List Qual :=
  qualGo score meta none rows

/-- What a single row emits when the state is `q` and the row is not a
header row; mirrors the non-header branches of the loop. -/
def emitAnswer (score : String → ℚ) (meta : Meta) (q : Option String)
    (row : List String) : Option Qual :=
  if row.isEmpty then none
  else if clean_cell (row.headD "") = "" then none
  else if pyStartsWith (lowerStr (clean_cell (row.headD ""))) "question:"
  then none
  else
    match q with
    | none => none
    | some qq =>
      if lowerStr (clean_cell (row.headD "")) = "n/a" ||
          lowerStr (clean_cell (row.headD "")) = "na" then none
      else some ⟨meta.courseTitle, meta.term, meta.year, qq,
        clean_cell (row.headD ""),
        compound_to_bucket (score (clean_cell (row.headD "")))⟩

/-- The state transition of the qualitative loop: only a header row (with
non-empty cleaned cell) changes `current_question`. -/
def qualStateStep (q : Option String) (row : List String) : Option String :=
  if row.isEmpty then q
  else if clean_cell (row.headD "") = "" then q
  else if pyStartsWith (lowerStr (clean_cell (row.headD ""))) "question:"
  then some (stripQuestionTag (clean_cell (row.headD "")))
  else q

/-! ## Record assembly, section split, per-file and whole-run processing -/

/-- One main-summary record: the metadata plus Avg (21) and Avg (23). -/
structure MainRecord where
  meta : Meta
  avg21 : Option ℚ
  avg23 : Option ℚ
deriving DecidableEq, Repr

/-- `parse_main_record` of `main.py`:
`next((r['Avg'] for r in quant_rows if r.get('Question #') == k), None)` is
the `Avg` of the first measurement whose question number is `k` (`none`
when there is none, or when that measurement's own `Avg` is `none`). -/
def parse_main_record (quant_rows : List Quant) (meta : Meta) : MainRecord :=
  ⟨meta,
   (quant_rows.find? fun r => r.qnum == some 21).bind Quant.avg,
   (quant_rows.find? fun r => r.qnum == some 23).bind Quant.avg⟩

/-- The sentinel test of `process_file`:
`r and r[0].startswith('Text Responses')`. -/
def isTextResponsesRow (r : List String) : Bool :=
  !r.isEmpty && pyStartsWith (r.headD "") "Text Responses"

/-- The section split of `process_file`: drop the first five rows, then cut
at the first sentinel row (`next(..., len(quant_section))` is exactly
`List.findIdx`, which returns the length when no row matches). -/
def splitSections (rows : List (List String)) :
    List (List String) × List (List String) :=
  let rest := rows.drop 5
  let i := rest.findIdx isTextResponsesRow
  (rest.take i, rest.drop i)

/-- The error kinds of §7: I/O, metadata parse, numeric field parse. -/
inductive PError where
  | ioError
  | metadataParse
  | numericField
deriving DecidableEq, Repr

/-- `process_file` of `main.py`.  A file that could not be read is `none`
(the I/O error); otherwise the rows are parsed: metadata from the
comma-joined first lines, then the section split, the quantitative rows,
the qualitative rows and the main record.  Any error aborts the file with
no partial result. -/
def processFile (score : String → ℚ) (file : Option (List (List String))) :
    Except PError (MainRecord × List Quant × List Qual) :=
  match file with
  | none => .error .ioError
  | some rows =>
    let raw_lines := rows.map fun r => String.intercalate "," r
    match parse_metadata raw_lines with
    | .error _ => .error .metadataParse
    | .ok meta =>
      let secs := splitSections rows
      match parse_quant_section secs.1 meta with
      | .error _ => .error .numericField
      | .ok quant_rows =>
        .ok (parse_main_record quant_rows meta, quant_rows,
          parse_qual_section score secs.2 meta)

/-- The accumulation step of `main`: a file that raises is logged and
skipped; a file that succeeds appends its main record and extends the
quantitative and qualitative collections. -/
def runStep (score : String → ℚ)
    (acc : List MainRecord × List Quant × List Qual)
    (file : Option (List (List String))) :
    List MainRecord × List Quant × List Qual :=
  match processFile score file with
  | .error _ => acc
  | .ok (m, q, ql) => (acc.1 ++ [m], acc.2.1 ++ q, acc.2.2 ++ ql)

/-- `main` of `main.py`, over the discovered input files (each either
`none`, a file whose read raised an I/O error, or `some rows`): the three
output collections for the whole run. -/
def runMain (score : String → ℚ) (files : List (Option (List (List String)))) :
    List MainRecord × List Quant × List Qual :=
  files.foldl (runStep score) ([], [], [])

/-! ## Helper lemmas -/

/-- The metadata scan is a fold whose state, after the window, holds the
last regex match of each kind (a later match overwrites an earlier one):
the state equals the first match of the reversed window. -/
theorem foldl_metaStep (l : List String)
    (acc : Option (String × Nat × String) × Option Nat) :
    l.foldl metaStep acc =
      ((l.reverse.findSome? metaMatch).or acc.1,
       (l.reverse.findSome? respMatch).or acc.2) := by
  induction l generalizing acc with
  | nil => simp
  | cons x xs ih =>
    rw [List.foldl_cons, ih, List.reverse_cons, List.findSome?_append,
      List.findSome?_append]
    cases hm : metaMatch x <;> cases hr : respMatch x <;>
      simp [metaStep, hm, hr, Option.or_assoc, List.findSome?]

/-- C4: metadata extraction over the first four lines fails if and only if,
after scanning the window, a field is still unresolved: term/year/title
resolve exactly when some window line matches `meta_re`, and the
possible-respondent count exactly when some window line matches
`possible_resp_re`; otherwise an `OfferingMetadata` value is returned (the
`Except` result is total, so no other error escapes). -/
theorem c4_metadata_error_iff (lines : List String) :
    parse_metadata lines = .error () ↔
      (∀ l ∈ lines.take 4, metaMatch l = none) ∨
        (∀ l ∈ lines.take 4, respMatch l = none) := by
  unfold parse_metadata
  rw [foldl_metaStep]
  simp only [Option.or_none]
  rcases hA : (lines.take 4).reverse.findSome? metaMatch with _ | m <;>
    rcases hB : (lines.take 4).reverse.findSome? respMatch with _ | p
  · exact iff_of_true rfl (Or.inl fun l hl =>
      (List.findSome?_eq_none_iff.mp hA) l (List.mem_reverse.mpr hl))
  · exact iff_of_true rfl (Or.inl fun l hl =>
      (List.findSome?_eq_none_iff.mp hA) l (List.mem_reverse.mpr hl))
  · exact iff_of_true rfl (Or.inr fun l hl =>
      (List.findSome?_eq_none_iff.mp hB) l (List.mem_reverse.mpr hl))
  · obtain ⟨t, y, c⟩ := m
    refine iff_of_false (by simp) ?_
    rintro (hall | hall)
    · rw [List.findSome?_eq_none_iff.mpr
        (fun x hx => hall x (List.mem_reverse.mp hx))] at hA
      exact Option.noConfusion hA
    · rw [List.findSome?_eq_none_iff.mpr
        (fun x hx => hall x (List.mem_reverse.mp hx))] at hB
      exact Option.noConfusion hB

/-- C10: when metadata extraction succeeds, the term, year and course title
come from the last line of the four-line window that matches the header
pattern (later matches overwrite earlier ones), and the possible-respondent
count comes from the last line matching the respondents pattern: the
returned fields are the first `findSome?` match of the reversed window. -/
theorem c10_last_match_wins (lines : List String) (m : Meta)
    (h : parse_metadata lines = .ok m) :
    (lines.take 4).reverse.findSome? metaMatch =
        some (m.term, m.year, m.courseTitle) ∧
      (lines.take 4).reverse.findSome? respMatch =
        some m.possibleRespondents := by
  unfold parse_metadata at h
  rw [foldl_metaStep] at h
  simp only [Option.or_none] at h
  rcases hA : (lines.take 4).reverse.findSome? metaMatch with _ | m' <;>
    rcases hB : (lines.take 4).reverse.findSome? respMatch with _ | p <;>
    rw [hA, hB] at h
  · exact Except.noConfusion h
  · exact Except.noConfusion h
  · obtain ⟨t, y, c⟩ := m'
    exact Except.noConfusion h
  · obtain ⟨t, y, c⟩ := m'
    simp only [Except.ok.injEq] at h
    subst h
    exact ⟨rfl, rfl⟩

/-- Witness for C10: a window with two header matches and two respondents
matches; extraction returns the later ones (Fall 2023 "Intro to Systems",
42), not the earlier ones (Spring 2020 "Old Title", 7). -/
theorem c10_witness :
    ((["Spring 2020, Old Title Section 2",
        "Fall 2023, Intro to Systems Section 1",
        "There were: 7 possible respondents",
        "There were: 42 possible respondents"].take 4).reverse.findSome?
          metaMatch = some ("Fall", 2023, "Intro to Systems")) ∧
      ((["Spring 2020, Old Title Section 2",
        "Fall 2023, Intro to Systems Section 1",
        "There were: 7 possible respondents",
        "There were: 42 possible respondents"].take 4).reverse.findSome?
          respMatch = some 42) :=
  c10_last_match_wins _ ⟨"Intro to Systems", "Fall", 2023, 42⟩ rfl

/-- C9: a window with one line "Fall 2023, Intro to Systems Section 1" and
another "There were: 42 possible respondents" yields course title
"Intro to Systems", term "Fall", year 2023 and 42 possible respondents. -/
theorem c9_scenario :
    parse_metadata ["Course Evaluation Report",
      "Fall 2023, Intro to Systems Section 1", "",
      "There were: 42 possible respondents"] =
      .ok ⟨"Intro to Systems", "Fall", 2023, 42⟩ := rfl

/-- Counterexample to C1: at exactly -0.10 the guard `score > -0.10` is
false, so the cascade falls through past "Neutral" and (since
-0.10 > -0.50) returns "Slightly Negative"; at exactly -0.75 both
`score > -0.50` and `score > -0.75` are false, so it returns
"Highly Negative", not "Negative". -/
theorem c1_counterexample :
    compound_to_bucket (-0.10) ≠ "Neutral" ∧
      compound_to_bucket (-0.75) ≠ "Negative" := by
  have h10 : compound_to_bucket (-0.10) = "Slightly Negative" := by
    unfold compound_to_bucket; norm_num
  have h75 : compound_to_bucket (-0.75) = "Highly Negative" := by
    unfold compound_to_bucket; norm_num
  rw [h10, h75]
  exact ⟨by simp, by simp⟩

/-- C1 (amended): the boundary classifications are 0.75 ↦ "Highly
Positive", 0.749999 ↦ "Positive", 0.10 ↦ "Slightly Positive" and -0.9 ↦
"Highly Negative" as claimed, but exactly -0.10 ↦ "Slightly Negative" (not
"Neutral") and exactly -0.75 ↦ "Highly Negative" (not "Negative"). -/
theorem c1_amended_boundaries :
    compound_to_bucket 0.75 = "Highly Positive" ∧
      compound_to_bucket 0.749999 = "Positive" ∧
      compound_to_bucket 0.10 = "Slightly Positive" ∧
      compound_to_bucket (-0.10) = "Slightly Negative" ∧
      compound_to_bucket (-0.75) = "Highly Negative" ∧
      compound_to_bucket (-0.9) = "Highly Negative" := by
  refine ⟨?_, ?_, ?_, ?_, ?_, ?_⟩ <;> (unfold compound_to_bucket; norm_num)

set_option maxHeartbeats 1000000 in
/-- C3: `compound_to_bucket` is a total function of the score implementing
the ordered cascade with first match winning; resolving the evaluation
order into disjoint intervals, each label is returned exactly on the
interval the cascade leaves to it. -/
theorem c3_bucket_intervals (s : ℚ) :
    (compound_to_bucket s = "Highly Positive" ↔ 0.75 ≤ s) ∧
      (compound_to_bucket s = "Positive" ↔ 0.50 ≤ s ∧ s < 0.75) ∧
      (compound_to_bucket s = "Slightly Positive" ↔ 0.10 ≤ s ∧ s < 0.50) ∧
      (compound_to_bucket s = "Neutral" ↔ -0.10 < s ∧ s < 0.10) ∧
      (compound_to_bucket s = "Slightly Negative" ↔ -0.50 < s ∧ s ≤ -0.10) ∧
      (compound_to_bucket s = "Negative" ↔ -0.75 < s ∧ s ≤ -0.50) ∧
      (compound_to_bucket s = "Highly Negative" ↔ s ≤ -0.75) := by
  unfold compound_to_bucket
  split_ifs with h1 h2 h3 h4 h5 h6 <;>
    push_neg at * <;>
    refine ⟨?_, ?_, ?_, ?_, ?_, ?_, ?_⟩ <;>
    constructor <;>
    intro h <;>
    first
      | rfl
      | linarith
      | (exact ⟨by linarith, by linarith⟩)
      | (exact absurd h (by simp))

/-- Taking up to the first index satisfying `p` is taking while `p` fails. -/
theorem take_findIdx_eq_takeWhile (p : α → Bool) (l : List α) :
    l.take (l.findIdx p) = l.takeWhile (fun a => !p a) := by
  induction l with
  | nil => simp
  | cons x xs ih =>
    by_cases h : p x
    · simp [List.findIdx_cons, h]
    · simp [List.findIdx_cons, h, List.take_succ_cons, ih]

/-- Dropping up to the first index satisfying `p` is dropping while `p`
fails. -/
theorem drop_findIdx_eq_dropWhile (p : α → Bool) (l : List α) :
    l.drop (l.findIdx p) = l.dropWhile (fun a => !p a) := by
  induction l with
  | nil => simp
  | cons x xs ih =>
    by_cases h : p x
    · simp [List.findIdx_cons, h]
    · simp [List.findIdx_cons, h, List.drop_succ_cons, ih]

/-- C5: after the fixed 5-row offset, everything strictly before the first
row whose first cell starts with "Text Responses" (case-sensitive prefix)
is the quantitative region, and everything from that row on (inclusive) is
the qualitative region; with no sentinel the whole remainder is
quantitative and the qualitative region is empty (`takeWhile`/`dropWhile`
of the non-sentinel predicate say exactly this). -/
theorem c5_section_split (rows : List (List String)) :
    splitSections rows =
      ((rows.drop 5).takeWhile (fun r => !isTextResponsesRow r),
       (rows.drop 5).dropWhile (fun r => !isTextResponsesRow r)) := by
  show (((rows.drop 5).take ((rows.drop 5).findIdx isTextResponsesRow)),
      ((rows.drop 5).drop ((rows.drop 5).findIdx isTextResponsesRow))) = _
  rw [take_findIdx_eq_takeWhile, drop_findIdx_eq_dropWhile]

/-- The run's fold, from an arbitrary accumulator: each successfully
processed file appends its complete three record sets; a failing file
appends nothing. -/
theorem foldl_runStep (score : String → ℚ)
    (files : List (Option (List (List String))))
    (acc : List MainRecord × List Quant × List Qual) :
    files.foldl (runStep score) acc =
      (acc.1 ++ ((files.filterMap fun f => (processFile score f).toOption).map
          fun r => r.1),
       acc.2.1 ++ (((files.filterMap fun f =>
          (processFile score f).toOption).map fun r => r.2.1).flatten),
       acc.2.2 ++ (((files.filterMap fun f =>
          (processFile score f).toOption).map fun r => r.2.2).flatten)) := by
  induction files generalizing acc with
  | nil => simp
  | cons f fs ih =>
    rw [List.foldl_cons, ih, List.filterMap_cons]
    cases hf : processFile score f with
    | error e => simp [runStep, hf, Except.toOption]
    | ok r => simp [runStep, hf, Except.toOption]

/-- C2: over any run, the three output collections are exactly the
concatenation, in file order, of the per-file contributions of the files
that process without error: a file on which `processFile` fails (I/O,
metadata parse, or numeric field parse) contributes no rows to any of the
three outputs, never a partial contribution, while the remaining files
still contribute; a file that succeeds contributes its complete main,
quantitative and qualitative record sets. -/
theorem c2_failed_file_contributes_nothing (score : String → ℚ)
    (files : List (Option (List (List String)))) :
    runMain score files =
      (((files.filterMap fun f => (processFile score f).toOption).map
          fun r => r.1),
       (((files.filterMap fun f => (processFile score f).toOption).map
          fun r => r.2.1).flatten),
       (((files.filterMap fun f => (processFile score f).toOption).map
          fun r => r.2.2).flatten)) := by
  rw [runMain, foldl_runStep]
  simp

/-- `find?` returns the element at the first index whose predicate holds:
if `p` holds at `i` and fails strictly before `i`, `find?` is the element
at `i`. -/
theorem find?_eq_get_of_first (p : α → Bool) (l : List α) (i : Fin l.length)
    (hp : p (l.get i) = true)
    (hf : ∀ j : Fin i.val, p (l.get ⟨j.val, j.isLt.trans i.isLt⟩) = false) :
    l.find? p = some (l.get i) := by
  induction l with
  | nil => exact absurd i.isLt (by simp)
  | cons x xs ih =>
    match i with
    | ⟨0, _⟩ => exact List.find?_cons_of_pos xs hp
    | ⟨n + 1, hn⟩ =>
      have hx : p x = false := hf ⟨0, Nat.succ_pos n⟩
      rw [List.find?_cons_of_neg xs (by simp [hx])]
      exact ih ⟨n, Nat.lt_of_succ_lt_succ hn⟩ hp
        (fun j => hf ⟨j.val + 1, Nat.succ_lt_succ j.isLt⟩)

/-- C7: the record assembler is a pure function of the measurement list and
metadata producing exactly one `MainRecord`: its metadata is the given one;
its `Avg (21)` is the `Avg` of the first measurement in parse order whose
question number is 21 (and likewise 23 for `Avg (23)`); when no measurement
has that question number the field is `none`, never an error. -/
theorem c7_main_record (meta : Meta) (qs : List Quant) :
    ((parse_main_record qs meta).meta = meta) ∧
      (∀ i : Fin qs.length, (qs.get i).qnum = some 21 →
        (∀ j : Fin i.val,
          (qs.get ⟨j.val, j.isLt.trans i.isLt⟩).qnum ≠ some 21) →
        (parse_main_record qs meta).avg21 = (qs.get i).avg) ∧
      ((∀ r ∈ qs, r.qnum ≠ some 21) →
        (parse_main_record qs meta).avg21 = none) ∧
      (∀ i : Fin qs.length, (qs.get i).qnum = some 23 →
        (∀ j : Fin i.val,
          (qs.get ⟨j.val, j.isLt.trans i.isLt⟩).qnum ≠ some 23) →
        (parse_main_record qs meta).avg23 = (qs.get i).avg) ∧
      ((∀ r ∈ qs, r.qnum ≠ some 23) →
        (parse_main_record qs meta).avg23 = none) := by
  refine ⟨rfl, ?_, ?_, ?_, ?_⟩
  · intro i hp hf
    have := find?_eq_get_of_first (fun r => r.qnum == some 21) qs i
      (by simpa using hp) (fun j => by simpa using hf j)
    simp [parse_main_record, this]
  · intro hall
    have : qs.find? (fun r => r.qnum == some 21) = none :=
      List.find?_eq_none.mpr (fun x hx => by simpa using hall x hx)
    simp [parse_main_record, this]
  · intro i hp hf
    have := find?_eq_get_of_first (fun r => r.qnum == some 23) qs i
      (by simpa using hp) (fun j => by simpa using hf j)
    simp [parse_main_record, this]
  · intro hall
    have : qs.find? (fun r => r.qnum == some 23) = none :=
      List.find?_eq_none.mpr (fun x hx => by simpa using hall x hx)
    simp [parse_main_record, this]

/-- A successful reverse lookup in a table built as
`{v.lower(): k for k, v in l}` returns one of the keys of `l`. -/
theorem lookup_lower_mem_keys (l : List (Nat × String)) (s : String) (k : Nat)
    (h : ((l.map fun p => (lowerStr p.2, p.1)).lookup s) = some k) :
    k ∈ l.map Prod.fst := by
  induction l with
  | nil => exact absurd h (by simp)
  | cons a t ih =>
    rw [List.map_cons, List.lookup_cons] at h
    rcases hs : s == lowerStr a.2 with _ | _
    · rw [hs] at h
      exact List.mem_cons_of_mem _ (ih h)
    · rw [hs] at h
      simp only [Option.some.injEq] at h
      subst h
      exact List.mem_cons_self _ _

/-- C6: every measurement the quantitative row parser emits has non-empty
question text, a question number that is exactly the catalog's
case-insensitive reverse lookup of that text (so an unrecognized text
yields an absent number, not an error, while the row is still retained), a
sample size that is a non-negative integer whenever present, and a question
number that is one of the catalog's known keys whenever present. -/
theorem c6_quant_invariants (rows : List (List String)) (meta : Meta)
    (out : List Quant) (h : parse_quant_section rows meta = .ok out)
    (q : Quant) (hq : q ∈ out) :
    q.qtext ≠ "" ∧ q.qnum = TEXT_TO_QNUM.lookup (lowerStr q.qtext) ∧
      (∀ n ∈ q.sampleN, 0 ≤ n) ∧
      (∀ k ∈ q.qnum, k ∈ QUESTION_MAP.map Prod.fst) := by
  induction rows generalizing out with
  | nil =>
    simp only [parse_quant_section, Except.ok.injEq] at h
    subst h
    cases hq
  | cons row rest ih =>
    simp only [parse_quant_section] at h
    split at h
    · simp only [Except.ok.injEq] at h
      subst h
      cases hq
    · split at h
      · exact ih _ h hq
      · split at h
        · exact ih _ h hq
        · rename_i hqt
          split at h
          · split at h
            · rename_i tail heq
              simp only [Except.ok.injEq] at h
              subst h
              rcases hq with _ | ⟨_, hq⟩
              · refine ⟨hqt, rfl, fun n _ => Nat.zero_le n, fun k hk => ?_⟩
                exact lookup_lower_mem_keys QUESTION_MAP _ k
                  (by simpa [TEXT_TO_QNUM] using hk)
              · exact ih _ heq hq
            · exact Except.noConfusion h
          · exact Except.noConfusion h

/-- Witness for C6: the quantitative row
`["", "Mystery question text", "38", "4.2", "0.8"]` has question text with
no catalog match; the parser still emits a measurement for it, with an
absent question number, a non-negative sample size, and no error. -/
theorem c6_witness :
    ("Mystery question text" : String) ≠ "" ∧
      (none : Option Nat) =
        TEXT_TO_QNUM.lookup (lowerStr "Mystery question text") ∧
      (∀ n ∈ (some 38 : Option Nat), 0 ≤ n) ∧
      (∀ k ∈ (none : Option Nat), k ∈ QUESTION_MAP.map Prod.fst) :=
  c6_quant_invariants [["", "Mystery question text", "38", "4.2", "0.8"]]
    ⟨"Intro to Systems", "Fall", 2023, 42⟩
    [⟨⟨"Intro to Systems", "Fall", 2023, 42⟩, none, "Mystery question text",
      some 38, some (mkRat 42 10), some (mkRat 8 10)⟩] rfl
    ⟨⟨"Intro to Systems", "Fall", 2023, 42⟩, none, "Mystery question text",
      some 38, some (mkRat 42 10), some (mkRat 8 10)⟩ (List.Mem.head _)

/-- The qualitative state machine processes an appended row list by
processing the first part and continuing from the state it leaves. -/
theorem qualGo_append (score : String → ℚ) (meta : Meta)
    (xs ys : List (List String)) (q : Option String) :
    qualGo score meta q (xs ++ ys) =
      qualGo score meta q xs ++
        qualGo score meta (xs.foldl qualStateStep q) ys := by
  induction xs generalizing q with
  | nil => simp [qualGo]
  | cons row rest ih =>
    simp only [List.cons_append, qualGo, List.foldl_cons, qualStateStep]
    set cell := clean_cell (row.headD "") with hcell
    by_cases h1 : row.isEmpty
    · simp [h1, ih]
    · by_cases h2 : cell = ""
      · simp [h1, h2, ih]
      · by_cases h3 : pyStartsWith (lowerStr cell) "question:"
        · simp [h1, h2, h3, ih]
        · cases q with
          | none => simp [h1, h2, h3, ih]
          | some qq =>
            by_cases h4 : lowerStr cell = "n/a" ∨ lowerStr cell = "na"
            · simp [h1, h2, h3, h4, ih]
            · simp [h1, h2, h3, h4, ih]

/-- Over a block with no "Question:" header rows, the qualitative state
machine emits exactly the per-row emissions under the incoming state and
leaves the state unchanged. -/
theorem qualGo_block (score : String → ℚ) (meta : Meta)
    (block : List (List String)) (q : Option String)
    (hb : ∀ r ∈ block, isHeaderRow r = false) :
    qualGo score meta q block = block.filterMap (emitAnswer score meta q) ∧
      block.foldl qualStateStep q = q := by
  induction block with
  | nil => simp [qualGo]
  | cons row rest ih =>
    have hbrow : isHeaderRow row = false := hb row (List.mem_cons_self _ _)
    obtain ⟨ih1, ih2⟩ := ih fun r hr => hb r (List.mem_cons_of_mem _ hr)
    simp only [qualGo, List.filterMap_cons, List.foldl_cons, emitAnswer,
      qualStateStep]
    set cell := clean_cell (row.headD "") with hcell
    by_cases h1 : row.isEmpty
    · simp [h1, ih1, ih2]
    · by_cases h2 : cell = ""
      · simp [h1, h2, ih1, ih2]
      · have himp : ¬cell = "" →
            pyStartsWith (lowerStr cell) "question:" = false := by
          rw [hcell]
          simpa [isHeaderRow, h1] using hbrow
        have h3 := himp h2
        cases q with
        | none => simp [h1, h2, h3, ih1, ih2]
        | some qq =>
          by_cases h4 : lowerStr cell = "n/a" ∨ lowerStr cell = "na"
          · simp [h1, h2, h3, h4, ih1, ih2]
          · simp [h1, h2, h3, h4, ih1, ih2]

/-- C8: permuting the answer rows of a header-free block of the qualitative
region (all header rows and group membership fixed) permutes the emitted
comments and leaves the set of emitted comments unchanged; only the
emission order may differ. -/
theorem c8_qual_set_invariant (score : String → ℚ) (meta : Meta)
    (pre block blockP post : List (List String))
    (hperm : block.Perm blockP)
    (hb : ∀ r ∈ block, isHeaderRow r = false) :
    (parse_qual_section score (pre ++ block ++ post) meta).Perm
        (parse_qual_section score (pre ++ blockP ++ post) meta) ∧
      ∀ c, c ∈ parse_qual_section score (pre ++ block ++ post) meta ↔
        c ∈ parse_qual_section score (pre ++ blockP ++ post) meta := by
  have hbP : ∀ r ∈ blockP, isHeaderRow r = false :=
    fun r hr => hb r (hperm.mem_iff.mpr hr)
  have key : (parse_qual_section score (pre ++ block ++ post) meta).Perm
      (parse_qual_section score (pre ++ blockP ++ post) meta) := by
    unfold parse_qual_section
    rw [List.append_assoc pre block post, List.append_assoc pre blockP post,
      qualGo_append score meta pre (block ++ post),
      qualGo_append score meta block post,
      qualGo_append score meta pre (blockP ++ post),
      qualGo_append score meta blockP post]
    obtain ⟨hB1, hB2⟩ := qualGo_block score meta block
      (pre.foldl qualStateStep none) hb
    obtain ⟨hP1, hP2⟩ := qualGo_block score meta blockP
      (pre.foldl qualStateStep none) hbP
    rw [hB1, hB2, hP1, hP2]
    exact ((hperm.filterMap _).append_right _).append_left _
  exact ⟨key, fun c => key.mem_iff⟩

/-- Witness for C8: under a "Question: Instructor conduct professional"
header, swapping the answer row "Great mentor, always on time." with the
placeholder row "n/a" permutes the emitted comments and leaves their set
unchanged. -/
theorem c8_witness :
    (parse_qual_section (fun _ => (0 : ℚ))
        ([["Question: Instructor conduct professional"]] ++
          [["Great mentor, always on time."], ["n/a"]] ++ [])
        ⟨"Intro to Systems", "Fall", 2023, 42⟩).Perm
      (parse_qual_section (fun _ => (0 : ℚ))
        ([["Question: Instructor conduct professional"]] ++
          [["n/a"], ["Great mentor, always on time."]] ++ [])
        ⟨"Intro to Systems", "Fall", 2023, 42⟩) ∧
      (∀ c, c ∈ parse_qual_section (fun _ => (0 : ℚ))
          ([["Question: Instructor conduct professional"]] ++
            [["Great mentor, always on time."], ["n/a"]] ++ [])
          ⟨"Intro to Systems", "Fall", 2023, 42⟩ ↔
        c ∈ parse_qual_section (fun _ => (0 : ℚ))
          ([["Question: Instructor conduct professional"]] ++
            [["n/a"], ["Great mentor, always on time."]] ++ [])
          ⟨"Intro to Systems", "Fall", 2023, 42⟩) :=
  c8_qual_set_invariant (fun _ => (0 : ℚ))
    ⟨"Intro to Systems", "Fall", 2023, 42⟩
    [["Question: Instructor conduct professional"]]
    [["Great mentor, always on time."], ["n/a"]]
    [["n/a"], ["Great mentor, always on time."]]
    [] (by decide) (by decide)
